import Mathlib

/-!
Verification development for the plugin registry subsystem
(`source/Plugins.cpp` of the endless-sky fork).

The C++ code is shallowly embedded: the `Set<Plugin>` registry becomes an
association list from plugin name to record, the `DataNode` tree of the
structured-text collaborator becomes an inductive tree of token lists, and
the stateful operations (`Load`, `LoadSettings`, `Save`, `TogglePlugin`)
become explicit state-passing functions on the registry.

Collaborators that are part of the repository but outside the provided
sources (`Set.h`, `Plugins.h` defaults, `DataNode`/`DataFile`, `DataWriter`,
`Files`) are modelled from the specification, with a doc comment marking
each such definition.
-/

/-- A node of the structured-text tree produced by the DataFile/DataNode
collaborator: an ordered list of tokens plus zero or more child nodes. -/
inductive DataNode where
  | node (tokens : List String) (children : List DataNode)

/-- The token list of a node. -/
def DataNode.tokens : DataNode → List String
  | .node t _ => t

/-- The child nodes of a node. -/
def DataNode.children : DataNode → List DataNode
  | .node _ c => c

/-- Modelled from the spec: `DataNode::Token(index)` returns the token at the
given index of the ordered token list. The C++ accessor performs no bounds
check; the embedding totalizes the out-of-range case with the empty string,
and in-range-ness of the accesses made by the loader is tracked separately
by `loadReadsInRange` below. -/
def DataNode.Token (n : DataNode) (i : Nat) : String :=
  n.tokens.getD i ""

/-- `DataNode::Size()`: the number of tokens of the node. -/
def DataNode.Size (n : DataNode) : Nat :=
  n.tokens.length

/-- `DataNode::HasChildren()`: whether the node has any child node. -/
def DataNode.HasChildren (n : DataNode) : Bool :=
  !n.children.isEmpty

/-- Modelled from the spec: the boolean read from a settings-file token
(`DataNode::Value` narrowed to bool, Plugins.h/DataNode.cpp are not among the
given sources). The token "0" denotes false, any other token true. -/
def parseBool (s : String) : Bool :=
  !(s == "0")

/-- Modelled from the spec: the token the DataWriter collaborator emits for a
boolean value, chosen so that `parseBool` reads it back. -/
def writeBool (b : Bool) : String :=
  if b then "1" else "0"

/-- `std::set<std::string>::insert` on the list model of a string set:
appends the element unless it is already present. (The claims under
verification never observe the ordering of a set, only membership.) -/
def insertSet (s : String) (l : List String) : List String :=
  if l.contains s then l else l ++ [s]

/-- `Plugin::PluginDependencies`: the dependency sets attached to one
plugin, from `Plugins.h` as described by the spec data model. -/
structure PluginDependencies where
  gameVersion : String
  required : List String
  optional : List String
  conflicted : List String
deriving Repr, DecidableEq

/-- The dependency set of a plugin that declared no dependencies. -/
def emptyDeps : PluginDependencies :=
  { gameVersion := "", required := [], optional := [], conflicted := [] }

/-- `Plugin::PluginDependencies::IsEmpty()`: no dependencies of any kind. -/
def PluginDependencies.IsEmpty (d : PluginDependencies) : Bool :=
  d.required.isEmpty && d.optional.isEmpty && d.conflicted.isEmpty

/-- The loop body of `Plugin::PluginDependencies::IsValid()` over the
conflicted list: clear the flag for a conflicted name that also occurs in
required or in optional; otherwise keep it. -/
def conflictStep (req opt : List String) (isValid : Bool) (dependency : String) : Bool :=
  if req.contains dependency then false
  else if opt.contains dependency then false
  else isValid

/-- `Plugin::PluginDependencies::IsValid()`: walks the optional list (warnings
only, no effect on the flag) and then the conflicted list via
`conflictStep`, exactly as the source's second loop does. -/
def PluginDependencies.IsValid (d : PluginDependencies) : Bool :=
  d.conflicted.foldl (conflictStep d.required d.optional) true

/-- `Plugin`: one plugin's metadata plus the two state fields, from
`Plugins.h` as described by the spec data model. -/
structure Plugin where
  name : String
  path : String
  aboutText : String
  version : String
  authors : List String
  tags : List String
  dependencies : PluginDependencies
  enabled : Bool
  currentState : Bool
deriving Repr, DecidableEq

/-- `Plugin::IsValid()`: a record is valid iff its name is non-empty. -/
def Plugin.IsValid (p : Plugin) : Bool :=
  !p.name.isEmpty

/-- Modelled from the spec: the default-constructed `Plugin` record produced
by the registry's lookup-or-create accessor for a name not yet present
(`Plugins.h` is not among the given sources). All metadata is empty; the two
state fields default to the "effectively enabled" policy of the spec. -/
def defaultPlugin : Plugin :=
  { name := "", path := "", aboutText := "", version := "",
    authors := [], tags := [], dependencies := emptyDeps,
    enabled := true, currentState := true }

/-- The registry: the name-keyed store of plugin records
(`Set<Plugin> plugins`), modelled as an association list. The `std::map`
key ordering is abstracted away; no verified claim observes it. -/
abbrev Registry := List (String × Plugin)

/-- Lookup of the record stored under a name, if any. -/
def findRecord : Registry → String → Option Plugin
  | [], _ => none
  | e :: reg, n => if e.1 = n then some e.2 else findRecord reg n

/-- Modelled from the spec: the mutating half of `Set<Plugin>::Get`, the
lookup-or-create accessor (`Set.h` is not among the given sources). A name
with no record gets a fresh default record. -/
def ensure (reg : Registry) (n : String) : Registry :=
  match findRecord reg n with
  | some _ => reg
  | none => reg ++ [(n, defaultPlugin)]

/-- In-place mutation through the pointer returned by `Set<Plugin>::Get`:
rewrite the record stored under the given name. -/
def updateRecord (reg : Registry) (n : String) (f : Plugin → Plugin) : Registry :=
  reg.map (fun e => if e.1 = n then (e.1, f e.2) else e)

/-- One two-token settings entry applied to the registry: get-or-create the
record and set both `enabled` and `currentState` to the parsed boolean
(body of the inner loop of `LoadSettingsFromFile`). -/
def applySetting (reg : Registry) (n : String) (b : Bool) : Registry :=
  updateRecord (ensure reg n) n (fun p => { p with enabled := b, currentState := b })

/-- Sequential application of a list of (name, bool) settings entries. -/
def applyPairs : List (String × Bool) → Registry → Registry
  | [], reg => reg
  | p :: ps, reg => applyPairs ps (applySetting reg p.1 p.2)

/-- Inner loop of `LoadSettingsFromFile`: the children of a `state` node,
each two-token child applied as a settings entry. -/
def applyChildren : List DataNode → Registry → Registry
  | [], reg => reg
  | c :: cs, reg =>
    applyChildren cs
      (if c.Size = 2 then applySetting reg (c.Token 0) (parseBool (c.Token 1)) else reg)

/-- `LoadSettingsFromFile`: for every top-level node whose first token is
`state`, apply each two-token child entry; other nodes are skipped. -/
def LoadSettingsFromFile : List DataNode → Registry → Registry
  | [], reg => reg
  | n :: rest, reg =>
    LoadSettingsFromFile rest
      (if n.Token 0 = "state" then applyChildren n.children reg else reg)

/-- `Plugins::LoadSettings()`: process the system-wide settings file, then
the user-local settings file. The two parsed files stand in for the two
fixed filesystem locations. -/
def LoadSettings (globalFile localFile : List DataNode) (reg : Registry) : Registry :=
  LoadSettingsFromFile localFile (LoadSettingsFromFile globalFile reg)

/-- The settings entries a parsed settings file contributes, in order:
for each `state` node, one (name, bool) pair per two-token child. -/
def childSettings : List DataNode → List (String × Bool)
  | [] => []
  | c :: cs =>
    (if c.Size = 2 then [(c.Token 0, parseBool (c.Token 1))] else []) ++ childSettings cs

/-- All settings entries of a parsed settings file, in processing order. -/
def fileSettings : List DataNode → List (String × Bool)
  | [] => []
  | n :: rest =>
    (if n.Token 0 = "state" then childSettings n.children else []) ++ fileSettings rest

/-- The child nodes `Plugins::Save()` writes under its `state` node: one
two-token entry per valid record, in registry order; invalid records are
skipped. -/
def saveChildren : Registry → List DataNode
  | [] => []
  | e :: reg =>
    (if e.2.IsValid then [DataNode.node [e.1, writeBool e.2.currentState] []] else [])
      ++ saveChildren reg

/-- `Plugins::Save()`: nothing is written for an empty registry; otherwise
the written file is a single `state` node with one child entry per valid
record. The returned value is the parsed form of the written file
(`none` = no file written). -/
def Save (reg : Registry) : Option (List DataNode) :=
  if reg.isEmpty then none
  else some [DataNode.node ["state"] (saveChildren reg)]

/-- `Plugins::HasChanged()`: some record's `enabled` differs from its
`currentState`. -/
def HasChanged (reg : Registry) : Bool :=
  reg.any (fun e => e.2.enabled != e.2.currentState)

/-- `Plugins::TogglePlugin(name)`: get-or-create the record and negate its
`currentState`. -/
def TogglePlugin (reg : Registry) (n : String) : Registry :=
  updateRecord (ensure reg n) n (fun p => { p with currentState := !p.currentState })

/-- The directory inputs `Plugins::Load(path)` consumes besides the path:
the parsed declaration file (`none` when `plugin.txt` is absent, in which
case `DataFile` yields no nodes) and the content the `Files::Read`
collaborator returns for `about.txt` (the empty string when absent).
`Files.h` is not among the given sources; both are modelled from the spec. -/
structure PluginDir where
  path : String
  pluginTxt : Option (List DataNode)
  aboutTxt : String

/-- The index of the rightmost slash at position at most `cap`, if any
(`std::string::rfind` specialized as the loader uses it). -/
def rfindSlash (cs : List Char) (cap : Nat) : Option Nat :=
  (List.range cs.length).foldl
    (fun acc i => if i ≤ cap ∧ cs.getD i ' ' = '/' then some i else acc) none

/-- The default plugin name `Plugins::Load` derives from the path: the
trailing directory-name component, via
`pos = path.rfind('/', length-2) + 1; substr(pos, length-1-pos)`. -/
def dirName (path : String) : String :=
  let cs := path.toList
  let n := cs.length
  let pos :=
    match rfindSlash cs (n - 2) with
    | some i => i + 1
    | none => 0
  String.mk ((cs.drop pos).take (n - 1 - pos))

/-- The accumulator of the declaration-file parse loop of `Plugins::Load`. -/
structure ParsedMeta where
  name : String
  hasName : Bool
  aboutText : String
  version : String
  authors : List String
  tags : List String
  dependencies : PluginDependencies
deriving Repr, DecidableEq

/-- One child of the `dependencies` block, as the loader's inner loop
consumes it. Note that the `game version` branch reads token 1 without a
size guard, exactly as the source does. -/
def parseDepChild (d : PluginDependencies) (grand : DataNode) : PluginDependencies :=
  if grand.Token 0 = "game version" then
    { d with gameVersion := grand.Token 1 }
  else if grand.Token 0 = "requires" ∧ grand.HasChildren then
    { d with required := grand.children.foldl (fun s g => insertSet (g.Token 0) s) d.required }
  else if grand.Token 0 = "optional" ∧ grand.HasChildren then
    { d with optional := grand.children.foldl (fun s g => insertSet (g.Token 0) s) d.optional }
  else if grand.Token 0 = "conflicts" ∧ grand.HasChildren then
    { d with conflicted := grand.children.foldl (fun s g => insertSet (g.Token 0) s) d.conflicted }
  else
    d

/-- One top-level child of the declaration file, as the loader's parse loop
consumes it. -/
def parseChild (m : ParsedMeta) (child : DataNode) : ParsedMeta :=
  if child.Token 0 = "name" ∧ 2 ≤ child.Size then
    { m with name := child.Token 1, hasName := true }
  else if child.Token 0 = "about" ∧ 2 ≤ child.Size then
    { m with aboutText := m.aboutText ++ child.Token 1 ++ "\n" }
  else if child.Token 0 = "version" ∧ 2 ≤ child.Size then
    { m with version := child.Token 1 }
  else if child.Token 0 = "authors" ∧ child.HasChildren then
    { m with authors := child.children.foldl (fun s g => insertSet (g.Token 0) s) m.authors }
  else if child.Token 0 = "tags" ∧ child.HasChildren then
    { m with tags := child.children.foldl (fun s g => insertSet (g.Token 0) s) m.tags }
  else if child.Token 0 = "dependencies" ∧ child.HasChildren then
    { m with dependencies := child.children.foldl parseDepChild m.dependencies }
  else
    m

/-- The whole metadata-parsing phase of `Plugins::Load`: the directory-derived
default name, then the declaration file's nodes folded over `parseChild`. -/
def parseMeta (dir : PluginDir) : ParsedMeta :=
  (dir.pluginTxt.getD []).foldl parseChild
    { name := dirName dir.path, hasName := false, aboutText := "", version := "",
      authors := [], tags := [], dependencies := emptyDeps }

/-- The name under which `Plugins::Load` would register the given directory. -/
def loadedName (dir : PluginDir) : String :=
  (parseMeta dir).name

/-- The populated record a successful `Plugins::Load` stores and returns:
the pre-existing slot's record with every metadata field overwritten and the
two state fields (`enabled`/`currentState`) untouched. -/
def loadResult (reg : Registry) (dir : PluginDir) : Plugin :=
  let m := parseMeta dir
  let pre := (findRecord reg m.name).getD defaultPlugin
  { pre with
    name := m.name
    path := dir.path
    aboutText := if m.aboutText = "" then dir.aboutTxt else m.aboutText
    version := m.version
    authors := m.authors
    tags := m.tags
    dependencies := m.dependencies }

/-- `Plugins::Load(path)`: parse the metadata, get-or-create the registry
slot for the parsed name, reject on an already-valid record under that name
or on an invalid dependency set (returning null), and otherwise store
`loadResult` in the slot. Returns the handle (`none` = null) and the
registry after the call. -/
def Load (reg : Registry) (dir : PluginDir) : Option Plugin × Registry :=
  let m := parseMeta dir
  let reg1 := ensure reg m.name
  let pre := (findRecord reg m.name).getD defaultPlugin
  if pre.IsValid then (none, reg1)
  else if !m.dependencies.IsValid then (none, reg1)
  else (some (loadResult reg dir), updateRecord reg1 m.name (fun _ => loadResult reg dir))

/-- Whether every token access the loader performs on one child of the
`dependencies` block is in range: token 0 always, token 1 for a
`game version` child, and token 0 of each grandchild of a
requires/optional/conflicts sub-block. -/
def depReadOK (grand : DataNode) : Bool :=
  decide (1 ≤ grand.Size) &&
  (if grand.Token 0 = "game version" then decide (2 ≤ grand.Size)
   else if (grand.Token 0 = "requires" ∨ grand.Token 0 = "optional"
       ∨ grand.Token 0 = "conflicts") ∧ grand.HasChildren then
     grand.children.all (fun great => decide (1 ≤ great.Size))
   else true)

/-- Whether every token access the loader performs on one top-level child of
the declaration file is in range. Branches that read token 1 behind a
`Size() >= 2` guard need no extra condition. -/
def childReadOK (child : DataNode) : Bool :=
  decide (1 ≤ child.Size) &&
  (if (child.Token 0 = "authors" ∨ child.Token 0 = "tags") ∧ child.HasChildren then
     child.children.all (fun g => decide (1 ≤ g.Size))
   else if child.Token 0 = "dependencies" ∧ child.HasChildren then
     child.children.all depReadOK
   else true)

/-- Whether every token access `Plugins::Load` performs while parsing the
given declaration file is in range. -/
def loadReadsInRange (file : List DataNode) : Bool :=
  file.all childReadOK

/-- Whether a node tree is a possible output of the structured-text parser,
to the depth the loader inspects: the parser never produces a node with an
empty token list. -/
def wfFile (file : List DataNode) : Bool :=
  file.all fun c =>
    decide (1 ≤ c.Size) && c.children.all fun g =>
      decide (1 ≤ g.Size) && g.children.all fun h => decide (1 ≤ h.Size)

/-- The value of the last settings entry for a given name in a list of
(name, bool) entries, if any: later entries override earlier ones, which is
how sequential application behaves. -/
def lastSetting : List (String × Bool) → String → Option Bool
  | [], _ => none
  | p :: ps, n =>
    match lastSetting ps n with
    | some b => some b
    | none => if p.1 = n then some p.2 else none

/-- The (name, currentState) pairs `Plugins::Save()` persists: one per valid
record, in registry order. -/
def savedPairs (reg : Registry) : List (String × Bool) :=
  (reg.filter (fun e => e.2.IsValid)).map (fun e => (e.1, e.2.currentState))

/-- A concrete plugin directory whose declaration file lists the name `A`
both as required and as conflicted, making its dependency set invalid. -/
def dirConflicting : PluginDir :=
  { path := "/p/",
    pluginTxt := some
      [DataNode.node ["name", "P"] [],
       DataNode.node ["dependencies"]
         [DataNode.node ["requires"] [DataNode.node ["A"] []],
          DataNode.node ["conflicts"] [DataNode.node ["A"] []]]],
    aboutTxt := "" }

/-- A concrete valid plugin record that is disabled and has no pending
toggle. -/
def pluginX : Plugin :=
  { defaultPlugin with name := "X", enabled := false, currentState := false }

/-- The record `TogglePlugin` leaves for a name that had no record: the
default placeholder with its `currentState` flipped. -/
def placeholderToggled : Plugin :=
  { defaultPlugin with currentState := false }

theorem findRecord_updateRecord_self (reg : Registry) (n : String) (f : Plugin → Plugin) :
    findRecord (updateRecord reg n f) n = (findRecord reg n).map f := by
  induction reg with
  | nil => rfl
  | cons e reg ih =>
    simp only [updateRecord, List.map_cons] at ih ⊢
    by_cases h : e.1 = n
    · simp [findRecord, h]
    · simp [findRecord, h, ih]

theorem findRecord_updateRecord_ne (reg : Registry) (n m : String) (f : Plugin → Plugin)
    (h : m ≠ n) : findRecord (updateRecord reg n f) m = findRecord reg m := by
  induction reg with
  | nil => rfl
  | cons e reg ih =>
    simp only [updateRecord, List.map_cons] at ih ⊢
    by_cases he : e.1 = n
    · have hne : e.1 ≠ m := by rw [he]; exact Ne.symm h
      simp [findRecord, he, hne, ih, Ne.symm h]
    · by_cases hm : e.1 = m <;> simp [findRecord, he, hm, ih, h]

theorem findRecord_append (a b : Registry) (n : String) :
    findRecord (a ++ b) n = ((findRecord a n).rec (findRecord b n) (fun p => some p)) := by
  induction a with
  | nil => rfl
  | cons e a ih =>
    by_cases h : e.1 = n <;> simp [findRecord, h, ih]

theorem findRecord_ensure_self (reg : Registry) (n : String) :
    findRecord (ensure reg n) n = some ((findRecord reg n).getD defaultPlugin) := by
  unfold ensure
  cases h : findRecord reg n with
  | some p => simp [h]
  | none =>
    rw [findRecord_append, h]
    simp [findRecord]

theorem findRecord_ensure_ne (reg : Registry) (n m : String) (h : m ≠ n) :
    findRecord (ensure reg n) m = findRecord reg m := by
  unfold ensure
  cases hf : findRecord reg n with
  | some p => rfl
  | none =>
    rw [findRecord_append]
    cases hm : findRecord reg m with
    | some p => rfl
    | none => simp [findRecord, Ne.symm h]

theorem ensure_of_found (reg : Registry) (n : String) (p : Plugin)
    (h : findRecord reg n = some p) : ensure reg n = reg := by
  unfold ensure; rw [h]

theorem findRecord_applySetting_self (reg : Registry) (n : String) (b : Bool) :
    findRecord (applySetting reg n b) n =
      some { (findRecord reg n).getD defaultPlugin with enabled := b, currentState := b } := by
  unfold applySetting
  rw [findRecord_updateRecord_self, findRecord_ensure_self]
  rfl

theorem findRecord_applySetting_ne (reg : Registry) (n m : String) (b : Bool) (h : m ≠ n) :
    findRecord (applySetting reg n b) m = findRecord reg m := by
  unfold applySetting
  rw [findRecord_updateRecord_ne _ _ _ _ h, findRecord_ensure_ne _ _ _ h]

theorem findRecord_applyPairs (ps : List (String × Bool)) :
    ∀ (reg : Registry) (n : String),
      findRecord (applyPairs ps reg) n =
        match lastSetting ps n with
        | some b =>
            some { (findRecord reg n).getD defaultPlugin with enabled := b, currentState := b }
        | none => findRecord reg n := by
  induction ps with
  | nil => intro reg n; rfl
  | cons p ps ih =>
    intro reg n
    simp only [applyPairs, lastSetting]
    rw [ih]
    cases hl : lastSetting ps n with
    | some b =>
      simp only []
      by_cases hp : p.1 = n
      · subst hp
        rw [findRecord_applySetting_self]
        rfl
      · rw [findRecord_applySetting_ne _ _ _ _ (fun hc => hp hc.symm)]
    | none =>
      simp only []
      by_cases hp : p.1 = n
      · subst hp
        rw [findRecord_applySetting_self]
        simp
      · rw [findRecord_applySetting_ne _ _ _ _ (fun hc => hp hc.symm)]
        simp [hp]

theorem mem_of_findRecord (reg : Registry) (n : String) (p : Plugin)
    (h : findRecord reg n = some p) : (n, p) ∈ reg := by
  induction reg with
  | nil => cases h
  | cons e reg ih =>
    by_cases he : e.1 = n
    · simp only [findRecord, if_pos he] at h
      cases h
      have : e = (n, e.2) := by rw [← he]
      rw [← this]
      exact List.mem_cons_self _ _
    · simp only [findRecord, if_neg he] at h
      exact List.mem_cons_of_mem _ (ih h)

theorem findRecord_eq_none_iff (reg : Registry) (n : String) :
    findRecord reg n = none ↔ ∀ e ∈ reg, e.1 ≠ n := by
  induction reg with
  | nil => simp [findRecord]
  | cons e reg ih =>
    by_cases he : e.1 = n <;> simp [findRecord, he, ih]

theorem findRecord_of_mem_nodup (reg : Registry) (n : String) (p : Plugin)
    (hnd : (reg.map Prod.fst).Nodup) (h : (n, p) ∈ reg) : findRecord reg n = some p := by
  induction reg with
  | nil => cases h
  | cons e reg ih =>
    rcases List.mem_cons.mp h with rfl | hmem
    · simp [findRecord]
    · have he : e.1 ≠ n := by
        intro hc
        have hk : n ∈ reg.map Prod.fst := List.mem_map.mpr ⟨(n, p), hmem, rfl⟩
        rw [List.map_cons, List.nodup_cons, hc] at hnd
        exact hnd.1 hk
      simp only [findRecord, if_neg he]
      exact ih (by rw [List.map_cons, List.nodup_cons] at hnd; exact hnd.2) hmem

theorem lastSetting_isSome_of_mem (ps : List (String × Bool)) (k : String) (b : Bool)
    (h : (k, b) ∈ ps) : lastSetting ps k ≠ none := by
  induction ps with
  | nil => cases h
  | cons p ps ih =>
    simp only [lastSetting]
    rcases List.mem_cons.mp h with rfl | hmem
    · cases hl : lastSetting ps k <;> simp
    · cases hl : lastSetting ps k with
      | some v => simp
      | none => exact absurd hl (ih hmem)

theorem mem_keys_of_lastSetting (ps : List (String × Bool)) (k : String) :
    ∀ v, lastSetting ps k = some v → k ∈ ps.map Prod.fst := by
  induction ps with
  | nil => intro v h; cases h
  | cons p ps ih =>
    intro v h
    simp only [lastSetting] at h
    cases hl : lastSetting ps k with
    | some w =>
      rw [List.map_cons]
      exact List.mem_cons_of_mem _ (ih w hl)
    | none =>
      rw [hl] at h
      by_cases hp : p.1 = k
      · rw [List.map_cons]
        exact hp ▸ List.mem_cons_self _ _
      · rw [if_neg hp] at h
        cases h

theorem lastSetting_of_mem_nodup (ps : List (String × Bool)) (k : String) (b : Bool)
    (hnd : (ps.map Prod.fst).Nodup) (h : (k, b) ∈ ps) : lastSetting ps k = some b := by
  induction ps with
  | nil => cases h
  | cons p ps ih =>
    rw [List.map_cons, List.nodup_cons] at hnd
    simp only [lastSetting]
    rcases List.mem_cons.mp h with rfl | hmem
    · cases hl : lastSetting ps k with
      | some v => exact absurd (mem_keys_of_lastSetting ps k v hl) hnd.1
      | none => simp
    · rw [ih hnd.2 hmem]

theorem mem_updateRecord (reg : Registry) (n : String) (f : Plugin → Plugin)
    (e : String × Plugin) (he : e ∈ updateRecord reg n f) :
    ∃ e0 ∈ reg, e = if e0.1 = n then (e0.1, f e0.2) else e0 := by
  rcases List.mem_map.mp he with ⟨e0, h0, heq⟩
  exact ⟨e0, h0, heq.symm⟩

theorem mem_ensure (reg : Registry) (n : String) (e : String × Plugin)
    (he : e ∈ ensure reg n) : e ∈ reg ∨ e = (n, defaultPlugin) := by
  unfold ensure at he
  cases hf : findRecord reg n with
  | some p => rw [hf] at he; exact Or.inl he
  | none =>
    rw [hf] at he
    rcases List.mem_append.mp he with h | h
    · exact Or.inl h
    · simp at h
      exact Or.inr (by rw [h])

theorem mem_applySetting (reg : Registry) (n : String) (b : Bool)
    (e : String × Plugin) (he : e ∈ applySetting reg n b) :
    (e.1 ≠ n ∧ e ∈ reg) ∨ (e.1 = n ∧ e.2.enabled = b ∧ e.2.currentState = b) := by
  unfold applySetting at he
  rcases mem_updateRecord _ _ _ _ he with ⟨e0, h0, heq⟩
  by_cases hk : e0.1 = n
  · right
    rw [if_pos hk] at heq
    subst heq
    exact ⟨hk, rfl, rfl⟩
  · left
    rw [if_neg hk] at heq
    subst heq
    rcases mem_ensure _ _ _ h0 with h | h
    · exact ⟨hk, h⟩
    · exact absurd (by rw [h]) hk

theorem mem_applyPairs (ps : List (String × Bool)) :
    ∀ (reg : Registry) (e : String × Plugin), e ∈ applyPairs ps reg →
      (e ∈ reg ∧ lastSetting ps e.1 = none) ∨
      (∃ b, lastSetting ps e.1 = some b ∧ e.2.enabled = b ∧ e.2.currentState = b) := by
  induction ps with
  | nil => intro reg e he; exact Or.inl ⟨he, rfl⟩
  | cons p ps ih =>
    intro reg e he
    rcases ih _ _ he with ⟨hmem, hnone⟩ | ⟨b, hsome, h1, h2⟩
    · rcases mem_applySetting _ _ _ _ hmem with ⟨hne, hreg⟩ | ⟨hkey, h1, h2⟩
      · left
        refine ⟨hreg, ?_⟩
        simp only [lastSetting, hnone]
        rw [if_neg (fun hc => hne hc.symm)]
      · right
        refine ⟨p.2, ?_, h1, h2⟩
        simp only [lastSetting, hnone]
        rw [if_pos hkey.symm]
    · right
      refine ⟨b, ?_, h1, h2⟩
      simp only [lastSetting, hsome]

theorem lastSetting_append (a b : List (String × Bool)) (n : String) :
    lastSetting (a ++ b) n =
      match lastSetting b n with
      | some v => some v
      | none => lastSetting a n := by
  induction a with
  | nil =>
    simp only [List.nil_append]
    cases hb : lastSetting b n <;> simp [lastSetting]
  | cons p a ih =>
    simp only [List.cons_append, lastSetting, List.append_eq, ih]
    cases hb : lastSetting b n <;> rfl

theorem applyChildren_eq (cs : List DataNode) :
    ∀ reg, applyChildren cs reg = applyPairs (childSettings cs) reg := by
  induction cs with
  | nil => intro reg; rfl
  | cons c cs ih =>
    intro reg
    simp only [applyChildren, childSettings]
    by_cases h : c.Size = 2
    · rw [if_pos h, if_pos h, ih]
      rfl
    · rw [if_neg h, if_neg h, ih]
      rfl

theorem applyPairs_append (a b : List (String × Bool)) :
    ∀ reg, applyPairs (a ++ b) reg = applyPairs b (applyPairs a reg) := by
  induction a with
  | nil => intro reg; rfl
  | cons p a ih =>
    intro reg
    simp only [List.cons_append, applyPairs, List.append_eq]
    rw [ih]

theorem loadSettingsFromFile_eq (file : List DataNode) :
    ∀ reg, LoadSettingsFromFile file reg = applyPairs (fileSettings file) reg := by
  induction file with
  | nil => intro reg; rfl
  | cons n rest ih =>
    intro reg
    simp only [LoadSettingsFromFile, fileSettings]
    by_cases h : n.Token 0 = "state"
    · rw [if_pos h, if_pos h, ih, applyChildren_eq, applyPairs_append]
    · rw [if_neg h, if_neg h, ih]
      rfl

theorem keys_updateRecord (reg : Registry) (n : String) (f : Plugin → Plugin) :
    (updateRecord reg n f).map Prod.fst = reg.map Prod.fst := by
  induction reg with
  | nil => rfl
  | cons e reg ih =>
    simp only [updateRecord, List.map_cons] at ih ⊢
    by_cases h : e.1 = n <;> simp [h, ih]

theorem parseBool_writeBool (b : Bool) : parseBool (writeBool b) = b := by
  cases b <;> decide

theorem saveChildren_eq (reg : Registry) :
    saveChildren reg =
      (reg.filter (fun e => e.2.IsValid)).map
        (fun e => DataNode.node [e.1, writeBool e.2.currentState] []) := by
  induction reg with
  | nil => rfl
  | cons e reg ih =>
    simp only [saveChildren, ih]
    by_cases h : e.2.IsValid <;> simp [List.filter_cons, h]

theorem childSettings_saveChildren (reg : Registry) :
    childSettings (saveChildren reg) = savedPairs reg := by
  induction reg with
  | nil => rfl
  | cons e reg ih =>
    simp only [saveChildren, savedPairs, List.filter_cons]
    by_cases h : e.2.IsValid
    · simp only [if_pos h, h, List.cons_append, List.nil_append, List.map_cons]
      simp only [savedPairs] at ih
      simp [childSettings, DataNode.Size, DataNode.tokens, DataNode.Token, List.getD, List.get?,
        parseBool_writeBool, ih]
    · simp only [if_neg h, h, List.nil_append]
      simp only [savedPairs] at ih
      simp [ih, h]

theorem fileSettings_stateNode (cs : List DataNode) :
    fileSettings [DataNode.node ["state"] cs] = childSettings cs := by
  simp [fileSettings, DataNode.Token, DataNode.tokens, DataNode.children, childSettings]

theorem save_of_ne_nil (reg : Registry) (h : reg ≠ []) :
    Save reg = some [DataNode.node ["state"] (saveChildren reg)] := by
  unfold Save
  rw [if_neg (by simpa [List.isEmpty_iff] using h)]

theorem fileSettings_save (reg : Registry) (file : List DataNode)
    (h : Save reg = some file) : fileSettings file = savedPairs reg := by
  unfold Save at h
  by_cases hn : reg.isEmpty
  · rw [if_pos hn] at h; cases h
  · rw [if_neg hn] at h
    cases h
    rw [fileSettings_stateNode, childSettings_saveChildren]

theorem conflictStep_eq (req opt : List String) (acc : Bool) (d : String) :
    conflictStep req opt acc d = (acc && (!req.contains d && !opt.contains d)) := by
  unfold conflictStep
  cases hr : req.contains d
  · cases ho : opt.contains d <;> simp
  · simp

theorem foldl_conflictStep (req opt : List String) :
    ∀ (l : List String) (acc : Bool),
      l.foldl (conflictStep req opt) acc
        = (acc && l.all (fun d => !req.contains d && !opt.contains d)) := by
  intro l
  induction l with
  | nil => intro acc; simp
  | cons d l ih =>
    intro acc
    rw [List.foldl_cons, conflictStep_eq, ih, List.all_cons, Bool.and_assoc]

theorem contains_eq_false_iff (l : List String) (s : String) :
    l.contains s = false ↔ s ∉ l := by
  constructor
  · intro h hm
    have hc : l.contains s = true := List.elem_iff.mpr hm
    rw [hc] at h
    cases h
  · intro hm
    cases hc : l.contains s with
    | false => rfl
    | true => exact absurd (List.elem_iff.mp hc) hm

/-- Claim C1: `PluginDependencies::IsValid()` returns true if and only if no
name occurs in both conflicted and required and no name occurs in both
conflicted and optional; in particular disjoint sets validate, any
conflicted overlap invalidates, and an overlap only between optional and
required does not invalidate. -/
theorem depsValid_iff_no_conflicted_overlap (d : PluginDependencies) :
    d.IsValid = true ↔ ∀ s ∈ d.conflicted, s ∉ d.required ∧ s ∉ d.optional := by
  unfold PluginDependencies.IsValid
  rw [foldl_conflictStep d.required d.optional d.conflicted true]
  simp only [Bool.true_and, List.all_eq_true, Bool.and_eq_true, Bool.not_eq_true']
  constructor
  · intro h s hs
    rcases h s hs with ⟨h1, h2⟩
    exact ⟨(contains_eq_false_iff _ _).mp h1, (contains_eq_false_iff _ _).mp h2⟩
  · intro h s hs
    rcases h s hs with ⟨h1, h2⟩
    exact ⟨(contains_eq_false_iff _ _).mpr h1, (contains_eq_false_iff _ _).mpr h2⟩

/-- Concrete instance of claim C1: a required/optional overlap alone leaves
the set valid, while a conflicted overlap invalidates. -/
theorem depsValid_iff_witness :
    ({ gameVersion := "", required := ["a"], optional := ["a", "b"],
       conflicted := ["c"] } : PluginDependencies).IsValid = true ∧
    ({ gameVersion := "", required := ["a"], optional := [],
       conflicted := ["a"] } : PluginDependencies).IsValid ≠ true :=
  ⟨(depsValid_iff_no_conflicted_overlap _).mpr (by decide),
   fun hc => by
     have h := (depsValid_iff_no_conflicted_overlap _).mp hc "a" (by decide)
     exact h.1 (by decide)⟩

theorem load_eq (reg : Registry) (dir : PluginDir) :
    Load reg dir =
      if ((findRecord reg (loadedName dir)).getD defaultPlugin).IsValid then
        (none, ensure reg (loadedName dir))
      else if !(parseMeta dir).dependencies.IsValid then
        (none, ensure reg (loadedName dir))
      else
        (some (loadResult reg dir),
          updateRecord (ensure reg (loadedName dir)) (loadedName dir)
            (fun _ => loadResult reg dir)) := rfl

theorem ensure_cases (reg : Registry) (n : String) :
    ensure reg n = reg ∨ ensure reg n = reg ++ [(n, defaultPlugin)] := by
  unfold ensure
  cases findRecord reg n <;> simp

/-- Claim C2 counterexample: a `Load` call whose parsed dependency set is
invalid returns null but does not leave the registry exactly as it was:
from the empty registry, loading `dirConflicting` leaves a placeholder
record behind. -/
theorem load_invalid_deps_cex :
    (parseMeta dirConflicting).dependencies.IsValid = false ∧
    (Load [] dirConflicting).1 = none ∧
    (Load [] dirConflicting).2 ≠ ([] : Registry) := by
  refine ⟨by decide, by decide, by decide⟩

/-- Claim C2 (amended): for every `Load` call whose parsed dependency set is
invalid, the call returns null and stores no populated record: the registry
is either unchanged or extended with exactly one default-initialized,
invalid placeholder entry under the parsed name, every pre-existing record
staying as it was. -/
theorem load_invalid_deps_rejected (reg : Registry) (dir : PluginDir)
    (h : (parseMeta dir).dependencies.IsValid = false) :
    (Load reg dir).1 = none ∧
    ((Load reg dir).2 = reg ∨
      (Load reg dir).2 = reg ++ [(loadedName dir, defaultPlugin)]) := by
  rw [load_eq]
  by_cases hv : ((findRecord reg (loadedName dir)).getD defaultPlugin).IsValid = true
  · rw [if_pos hv]
    exact ⟨rfl, ensure_cases reg (loadedName dir)⟩
  · rw [if_neg hv, if_pos (by rw [h]; rfl)]
    exact ⟨rfl, ensure_cases reg (loadedName dir)⟩

/-- Witness for the amended claim C2 at a concrete input. -/
theorem load_invalid_deps_rejected_witness :
    (Load [] dirConflicting).1 = none ∧
    ((Load [] dirConflicting).2 = [] ∨
      (Load [] dirConflicting).2 = [] ++ [(loadedName dirConflicting, defaultPlugin)]) :=
  load_invalid_deps_rejected [] dirConflicting (by decide)

theorem load_success_structure (reg : Registry) (dir : PluginDir) (p : Plugin)
    (h : (Load reg dir).1 = some p) :
    p = loadResult reg dir ∧
    (Load reg dir).2
      = updateRecord (ensure reg (loadedName dir)) (loadedName dir) (fun _ => p) ∧
    findRecord (Load reg dir).2 (loadedName dir) = some p ∧
    p.name = loadedName dir := by
  rw [load_eq] at h ⊢
  by_cases hv : ((findRecord reg (loadedName dir)).getD defaultPlugin).IsValid = true
  · rw [if_pos hv] at h
    cases h
  · rw [if_neg hv] at h ⊢
    by_cases hd : (!(parseMeta dir).dependencies.IsValid) = true
    · rw [if_pos hd] at h
      cases h
    · rw [if_neg hd] at h ⊢
      have hp : some (loadResult reg dir) = some p := h
      cases hp
      refine ⟨rfl, rfl, ?_, rfl⟩
      rw [findRecord_updateRecord_self, findRecord_ensure_self]
      rfl

/-- Claim C3: when a first `Load` produced a valid record, a second `Load`
from a directory resolving to the same name returns null and leaves the
registry (hence every field of the first plugin's record) unchanged. -/
theorem load_first_name_wins (reg : Registry) (dir1 dir2 : PluginDir) (p1 : Plugin)
    (h1 : (Load reg dir1).1 = some p1) (hv : p1.IsValid = true)
    (hn : loadedName dir2 = loadedName dir1) :
    (Load (Load reg dir1).2 dir2).1 = none ∧
    (Load (Load reg dir1).2 dir2).2 = (Load reg dir1).2 ∧
    findRecord (Load (Load reg dir1).2 dir2).2 (loadedName dir1) = some p1 := by
  obtain ⟨hp, hreg, hfind, hname⟩ := load_success_structure reg dir1 p1 h1
  have hfind2 : findRecord (Load reg dir1).2 (loadedName dir2) = some p1 := by
    rw [hn]
    exact hfind
  have hens : ensure (Load reg dir1).2 (loadedName dir2) = (Load reg dir1).2 :=
    ensure_of_found _ _ _ hfind2
  have hcond :
      ((findRecord (Load reg dir1).2 (loadedName dir2)).getD defaultPlugin).IsValid = true := by
    rw [hfind2]
    exact hv
  rw [load_eq, if_pos hcond, hens]
  exact ⟨rfl, rfl, hfind⟩

/-- Witness for claim C3 at concrete inputs: two directories deriving the
same plugin name from their paths. -/
theorem load_first_name_wins_witness :
    (Load (Load [] { path := "/a/q/", pluginTxt := none, aboutTxt := "one" }).2
        { path := "/b/q/", pluginTxt := none, aboutTxt := "two" }).1 = none ∧
    (Load (Load [] { path := "/a/q/", pluginTxt := none, aboutTxt := "one" }).2
        { path := "/b/q/", pluginTxt := none, aboutTxt := "two" }).2
      = (Load [] { path := "/a/q/", pluginTxt := none, aboutTxt := "one" }).2 ∧
    findRecord
        (Load (Load [] { path := "/a/q/", pluginTxt := none, aboutTxt := "one" }).2
          { path := "/b/q/", pluginTxt := none, aboutTxt := "two" }).2
        (loadedName { path := "/a/q/", pluginTxt := none, aboutTxt := "one" })
      = some (loadResult [] { path := "/a/q/", pluginTxt := none, aboutTxt := "one" }) :=
  load_first_name_wins [] _ _ _ (by decide) (by decide) (by decide)

/-- Claim C4: `LoadSettings()` processes the system-wide file and then the
user-local file; each two-token entry under a top-level `state` node
get-or-creates the record and sets both `enabled` and `currentState` to the
parsed boolean, so the value that ends up stored for a name is its last
applicable entry — the local file's value whenever the name occurs there,
the global file's value otherwise. -/
theorem loadSettings_stores_last_value (g l : List DataNode) (reg : Registry)
    (name : String) (b : Bool)
    (h : lastSetting (fileSettings l) name = some b ∨
         (lastSetting (fileSettings l) name = none ∧
          lastSetting (fileSettings g) name = some b)) :
    ∃ p, findRecord (LoadSettings g l reg) name = some p ∧
      p.enabled = b ∧ p.currentState = b := by
  unfold LoadSettings
  rw [loadSettingsFromFile_eq, loadSettingsFromFile_eq, findRecord_applyPairs]
  rcases h with hl | ⟨hl, hg⟩
  · rw [hl]
    exact ⟨_, rfl, rfl, rfl⟩
  · rw [hl, findRecord_applyPairs, hg]
    exact ⟨_, rfl, rfl, rfl⟩

/-- Witness for claim C4: the global and local files disagree about plugin
`X`; the local file's value (true) wins. -/
theorem loadSettings_stores_last_value_witness :
    ∃ p, findRecord (LoadSettings
        [DataNode.node ["state"] [DataNode.node ["X", "0"] []]]
        [DataNode.node ["state"] [DataNode.node ["X", "1"] []]] []) "X" = some p ∧
      p.enabled = true ∧ p.currentState = true :=
  loadSettings_stores_last_value _ _ [] "X" true (Or.inl (by decide))

/-- Claim C5: `Save()` writes nothing when the registry is empty; otherwise
it writes exactly one top-level `state` node whose children are one
`<name> <currentState>` entry per valid record, records with an empty name
being skipped. -/
theorem save_writes_one_state_node (reg : Registry) :
    (Save reg = none ↔ reg = []) ∧
    (reg ≠ [] →
      Save reg = some [DataNode.node ["state"]
        ((reg.filter (fun e => e.2.IsValid)).map
          (fun e => DataNode.node [e.1, writeBool e.2.currentState] []))]) := by
  constructor
  · constructor
    · intro h
      unfold Save at h
      by_cases he : reg.isEmpty
      · exact List.isEmpty_iff.mp he
      · rw [if_neg he] at h
        cases h
    · intro h
      subst h
      rfl
  · intro h
    rw [save_of_ne_nil reg h, saveChildren_eq]

/-- Witness for claim C5: the empty registry writes nothing; a registry
with one valid and one placeholder record writes one state node holding
only the valid record's entry. -/
theorem save_writes_one_state_node_witness :
    (Save ([] : Registry) = none) ∧
    Save [("X", pluginX), ("Y", placeholderToggled)]
      = some [DataNode.node ["state"]
          (([("X", pluginX), ("Y", placeholderToggled)].filter (fun e => e.2.IsValid)).map
            (fun e => DataNode.node [e.1, writeBool e.2.currentState] []))] :=
  ⟨(save_writes_one_state_node []).1.mpr rfl,
   (save_writes_one_state_node _).2 (by decide)⟩

/-- Claim C6 counterexample: in a registry holding the valid, disabled
plugin `X` together with a toggled invalid placeholder, the toggle/save/load
round trip for `X` restores `enabled = currentState = true` for `X`, yet
`HasChanged()` still returns true afterwards (the placeholder is neither
saved nor reloaded), contradicting the claim's final state. -/
theorem toggle_save_load_cex :
    findRecord [("X", pluginX), ("Y", placeholderToggled)] "X" = some pluginX ∧
    pluginX.IsValid = true ∧ pluginX.enabled = false ∧ pluginX.currentState = false ∧
    HasChanged (TogglePlugin [("X", pluginX), ("Y", placeholderToggled)] "X") = true ∧
    Save (TogglePlugin [("X", pluginX), ("Y", placeholderToggled)] "X")
      = some [DataNode.node ["state"] [DataNode.node ["X", "1"] []]] ∧
    (findRecord
        (LoadSettingsFromFile [DataNode.node ["state"] [DataNode.node ["X", "1"] []]]
          (TogglePlugin [("X", pluginX), ("Y", placeholderToggled)] "X")) "X").map
      (fun p => (p.enabled, p.currentState)) = some (true, true) ∧
    HasChanged
        (LoadSettingsFromFile [DataNode.node ["state"] [DataNode.node ["X", "1"] []]]
          (TogglePlugin [("X", pluginX), ("Y", placeholderToggled)] "X")) = true :=
  ⟨by decide, by decide, by decide, by decide, by decide, by rfl, by decide, by decide⟩

/-- Claim C6 (amended): for a valid plugin X with `enabled = currentState =
false`, `TogglePlugin` makes `HasChanged()` true; after `Save()` and
reloading the saved file through the settings-load step, X has
`enabled = currentState = true` and `HasChanged()` is false again — provided
the registry's keys are unique (the std::map invariant) and no invalid
placeholder record has a pending toggle. -/
theorem toggle_save_load_roundtrip (reg : Registry) (x : String) (pX : Plugin)
    (hnd : (reg.map Prod.fst).Nodup)
    (hfind : findRecord reg x = some pX)
    (hvalid : pX.IsValid = true)
    (he : pX.enabled = false) (hc : pX.currentState = false)
    (hinv : ∀ e ∈ reg, e.2.IsValid = false → e.2.enabled = e.2.currentState) :
    HasChanged (TogglePlugin reg x) = true ∧
    ∃ file, Save (TogglePlugin reg x) = some file ∧
      (∃ p, findRecord (LoadSettingsFromFile file (TogglePlugin reg x)) x = some p ∧
        p.enabled = true ∧ p.currentState = true) ∧
      HasChanged (LoadSettingsFromFile file (TogglePlugin reg x)) = false := by
  have hens : ensure reg x = reg := ensure_of_found _ _ _ hfind
  have hreg1 : TogglePlugin reg x
      = updateRecord reg x (fun p => { p with currentState := !p.currentState }) := by
    unfold TogglePlugin
    rw [hens]
  have hfind1 : findRecord (TogglePlugin reg x) x
      = some { pX with currentState := true } := by
    rw [hreg1, findRecord_updateRecord_self, hfind]
    simp [hc]
  have hmem1 : (x, { pX with currentState := true }) ∈ TogglePlugin reg x :=
    mem_of_findRecord _ _ _ hfind1
  have hchanged : HasChanged (TogglePlugin reg x) = true := by
    apply List.any_eq_true.mpr
    refine ⟨_, hmem1, ?_⟩
    show (pX.enabled != true) = true
    rw [he]
    rfl
  have hnd1 : ((TogglePlugin reg x).map Prod.fst).Nodup := by
    rw [hreg1, keys_updateRecord]
    exact hnd
  have hne : TogglePlugin reg x ≠ [] := List.ne_nil_of_mem hmem1
  have hsave := save_of_ne_nil _ hne
  have hfs : fileSettings [DataNode.node ["state"] (saveChildren (TogglePlugin reg x))]
      = savedPairs (TogglePlugin reg x) := fileSettings_save _ _ hsave
  have hvalid1 : ({ pX with currentState := true } : Plugin).IsValid = true := hvalid
  have hkpair : (x, true) ∈ savedPairs (TogglePlugin reg x) := by
    have hmf : (x, { pX with currentState := true })
        ∈ (TogglePlugin reg x).filter (fun e => e.2.IsValid) :=
      List.mem_filter.mpr ⟨hmem1, hvalid1⟩
    exact List.mem_map_of_mem (fun e => (e.1, e.2.currentState)) hmf
  have hndp : ((savedPairs (TogglePlugin reg x)).map Prod.fst).Nodup := by
    have hkeys : (savedPairs (TogglePlugin reg x)).map Prod.fst
        = ((TogglePlugin reg x).filter (fun e => e.2.IsValid)).map Prod.fst := by
      unfold savedPairs
      rw [List.map_map]
      rfl
    rw [hkeys]
    exact hnd1.sublist ((List.filter_sublist _).map Prod.fst)
  have hlast : lastSetting (savedPairs (TogglePlugin reg x)) x = some true :=
    lastSetting_of_mem_nodup _ _ _ hndp hkpair
  have hreload :
      LoadSettingsFromFile [DataNode.node ["state"] (saveChildren (TogglePlugin reg x))]
        (TogglePlugin reg x)
      = applyPairs (savedPairs (TogglePlugin reg x)) (TogglePlugin reg x) := by
    rw [loadSettingsFromFile_eq, hfs]
  refine ⟨hchanged, [DataNode.node ["state"] (saveChildren (TogglePlugin reg x))],
    hsave, ?_, ?_⟩
  · rw [hreload, findRecord_applyPairs, hlast]
    exact ⟨_, rfl, rfl, rfl⟩
  · rw [hreload]
    unfold HasChanged
    rw [List.any_eq_false]
    intro e hme
    rcases mem_applyPairs _ _ _ hme with ⟨hmem2, hnone⟩ | ⟨b, _, h1, h2⟩
    · have hinv2 : e.2.IsValid = false := by
        cases hval : e.2.IsValid
        · rfl
        · exfalso
          have hmf : e ∈ (TogglePlugin reg x).filter (fun e => e.2.IsValid) :=
            List.mem_filter.mpr ⟨hmem2, hval⟩
          have hS : (e.1, e.2.currentState) ∈ savedPairs (TogglePlugin reg x) :=
            List.mem_map_of_mem (fun e => (e.1, e.2.currentState)) hmf
          exact lastSetting_isSome_of_mem _ _ _ hS hnone
      rw [hreg1] at hmem2
      rcases mem_updateRecord _ _ _ _ hmem2 with ⟨e0, h0, heq⟩
      obtain ⟨k0, p0⟩ := e0
      by_cases hk : k0 = x
      · exfalso
        have hfr : findRecord reg x = some p0 := by
          have hfr0 := findRecord_of_mem_nodup reg k0 p0 hnd h0
          rw [hk] at hfr0
          exact hfr0
        rw [hfind] at hfr
        injection hfr with hp0
        rw [if_pos (show ((k0, p0).1 = x) from hk)] at heq
        rw [heq] at hinv2
        have hpv : pX.IsValid = false := by
          rw [hp0]
          exact hinv2
        rw [hvalid] at hpv
        cases hpv
      · rw [if_neg (show ¬((k0, p0).1 = x) from hk)] at heq
        subst heq
        have hq : p0.enabled = p0.currentState := hinv _ h0 hinv2
        simp [hq]
    · simp [h1, h2]

/-- Witness for the amended claim C6 at a concrete one-plugin registry. -/
theorem toggle_save_load_roundtrip_witness :
    HasChanged (TogglePlugin [("X", pluginX)] "X") = true ∧
    ∃ file, Save (TogglePlugin [("X", pluginX)] "X") = some file ∧
      (∃ p, findRecord
          (LoadSettingsFromFile file (TogglePlugin [("X", pluginX)] "X")) "X" = some p ∧
        p.enabled = true ∧ p.currentState = true) ∧
      HasChanged (LoadSettingsFromFile file (TogglePlugin [("X", pluginX)] "X")) = false :=
  toggle_save_load_roundtrip [("X", pluginX)] "X" pluginX (by decide) (by decide)
    (by decide) (by decide) (by decide) (by decide)

/-- Claim C7 counterexample: for a directory path ending in a separator
with no `plugin.txt`, `Load` does not always succeed: when a valid record
already occupies the derived name, it returns null. -/
theorem load_no_declaration_cex :
    ({ path := "/p/", pluginTxt := none, aboutTxt := "" } : PluginDir).pluginTxt = none ∧
    ("/p/").toList.getLast? = some '/' ∧
    (Load [("p", { defaultPlugin with name := "p" })]
      { path := "/p/", pluginTxt := none, aboutTxt := "" }).1 = none := by
  refine ⟨rfl, by decide, by decide⟩

/-- Claim C7 (amended): for a directory path ending in a path separator
whose `plugin.txt` is absent, provided no valid record already occupies the
derived name, `Load` succeeds and returns a handle whose name is the
trailing directory-name component, whose `aboutText` is the `about.txt`
content (empty when the file is absent), and whose remaining metadata is
empty. -/
theorem load_no_declaration (reg : Registry) (dir : PluginDir)
    (_hsep : dir.path.toList.getLast? = some '/')
    (hno : dir.pluginTxt = none)
    (hfresh : ∀ q, findRecord reg (dirName dir.path) = some q → q.IsValid = false) :
    ∃ p, (Load reg dir).1 = some p ∧
      p.name = dirName dir.path ∧
      p.aboutText = dir.aboutTxt ∧
      p.version = "" ∧ p.authors = [] ∧ p.tags = [] ∧
      p.dependencies = emptyDeps := by
  have hm : parseMeta dir
      = { name := dirName dir.path, hasName := false, aboutText := "", version := "",
          authors := [], tags := [], dependencies := emptyDeps } := by
    unfold parseMeta
    rw [hno]
    rfl
  have hln : loadedName dir = dirName dir.path := by
    unfold loadedName
    rw [hm]
  have hcond : ((findRecord reg (loadedName dir)).getD defaultPlugin).IsValid = false := by
    rw [hln]
    cases hf : findRecord reg (dirName dir.path) with
    | none => rfl
    | some q => exact hfresh q hf
  rw [load_eq, if_neg (by rw [hcond]; simp),
    if_neg (by rw [hm]; show ¬((!emptyDeps.IsValid) = true); decide)]
  refine ⟨loadResult reg dir, rfl, ?_, ?_, ?_, ?_, ?_, ?_⟩
  · show (parseMeta dir).name = dirName dir.path
    rw [hm]
  · show (if (parseMeta dir).aboutText = "" then dir.aboutTxt else (parseMeta dir).aboutText)
      = dir.aboutTxt
    rw [hm]
    rfl
  · show (parseMeta dir).version = ""
    rw [hm]
  · show (parseMeta dir).authors = []
    rw [hm]
  · show (parseMeta dir).tags = []
    rw [hm]
  · show (parseMeta dir).dependencies = emptyDeps
    rw [hm]

/-- Witness for the amended claim C7 at a concrete directory. -/
theorem load_no_declaration_witness :
    ∃ p, (Load []
        { path := "/plugins/coolplugin/", pluginTxt := none, aboutTxt := "About!" }).1
        = some p ∧
      p.name = dirName "/plugins/coolplugin/" ∧
      p.aboutText
        = ({ path := "/plugins/coolplugin/", pluginTxt := none, aboutTxt := "About!" } :
            PluginDir).aboutTxt ∧
      p.version = "" ∧ p.authors = [] ∧ p.tags = [] ∧
      p.dependencies = emptyDeps :=
  load_no_declaration [] _ (by decide) rfl (by intro q h; cases h)

/-- Claim C8: a successful `Load` never writes the two state fields: the
returned (and stored) record keeps the `enabled`/`currentState` the registry
slot held before the call (the defaults when the slot is fresh), while every
other field is populated from the parse. -/
theorem load_preserves_state_fields (reg : Registry) (dir : PluginDir) (p : Plugin)
    (h : (Load reg dir).1 = some p) :
    p.enabled = ((findRecord reg (loadedName dir)).getD defaultPlugin).enabled ∧
    p.currentState = ((findRecord reg (loadedName dir)).getD defaultPlugin).currentState ∧
    findRecord (Load reg dir).2 (loadedName dir) = some p ∧
    p.name = loadedName dir ∧
    p.path = dir.path ∧
    p.version = (parseMeta dir).version ∧
    p.authors = (parseMeta dir).authors ∧
    p.tags = (parseMeta dir).tags ∧
    p.dependencies = (parseMeta dir).dependencies ∧
    p.aboutText = (if (parseMeta dir).aboutText = "" then dir.aboutTxt
      else (parseMeta dir).aboutText) := by
  obtain ⟨hp, hreg, hfind, hname⟩ := load_success_structure reg dir p h
  subst hp
  exact ⟨rfl, rfl, hfind, rfl, rfl, rfl, rfl, rfl, rfl, rfl⟩

/-- Witness for claim C8: loading over a slot whose state fields were
already overlaid (enabled = false, currentState = true) keeps exactly those
values. -/
theorem load_preserves_state_fields_witness :
    (loadResult [("q", { defaultPlugin with enabled := false, currentState := true })]
        { path := "/a/q/", pluginTxt := none, aboutTxt := "" }).enabled
      = ((findRecord [("q", { defaultPlugin with enabled := false, currentState := true })]
          (loadedName { path := "/a/q/", pluginTxt := none, aboutTxt := "" })).getD
            defaultPlugin).enabled ∧
    (loadResult [("q", { defaultPlugin with enabled := false, currentState := true })]
        { path := "/a/q/", pluginTxt := none, aboutTxt := "" }).currentState
      = ((findRecord [("q", { defaultPlugin with enabled := false, currentState := true })]
          (loadedName { path := "/a/q/", pluginTxt := none, aboutTxt := "" })).getD
            defaultPlugin).currentState ∧
    findRecord
        (Load [("q", { defaultPlugin with enabled := false, currentState := true })]
          { path := "/a/q/", pluginTxt := none, aboutTxt := "" }).2
        (loadedName { path := "/a/q/", pluginTxt := none, aboutTxt := "" })
      = some (loadResult [("q", { defaultPlugin with enabled := false, currentState := true })]
          { path := "/a/q/", pluginTxt := none, aboutTxt := "" }) ∧
    (loadResult [("q", { defaultPlugin with enabled := false, currentState := true })]
        { path := "/a/q/", pluginTxt := none, aboutTxt := "" }).name
      = loadedName { path := "/a/q/", pluginTxt := none, aboutTxt := "" } ∧
    (loadResult [("q", { defaultPlugin with enabled := false, currentState := true })]
        { path := "/a/q/", pluginTxt := none, aboutTxt := "" }).path
      = ({ path := "/a/q/", pluginTxt := none, aboutTxt := "" } : PluginDir).path ∧
    (loadResult [("q", { defaultPlugin with enabled := false, currentState := true })]
        { path := "/a/q/", pluginTxt := none, aboutTxt := "" }).version
      = (parseMeta { path := "/a/q/", pluginTxt := none, aboutTxt := "" }).version ∧
    (loadResult [("q", { defaultPlugin with enabled := false, currentState := true })]
        { path := "/a/q/", pluginTxt := none, aboutTxt := "" }).authors
      = (parseMeta { path := "/a/q/", pluginTxt := none, aboutTxt := "" }).authors ∧
    (loadResult [("q", { defaultPlugin with enabled := false, currentState := true })]
        { path := "/a/q/", pluginTxt := none, aboutTxt := "" }).tags
      = (parseMeta { path := "/a/q/", pluginTxt := none, aboutTxt := "" }).tags ∧
    (loadResult [("q", { defaultPlugin with enabled := false, currentState := true })]
        { path := "/a/q/", pluginTxt := none, aboutTxt := "" }).dependencies
      = (parseMeta { path := "/a/q/", pluginTxt := none, aboutTxt := "" }).dependencies ∧
    (loadResult [("q", { defaultPlugin with enabled := false, currentState := true })]
        { path := "/a/q/", pluginTxt := none, aboutTxt := "" }).aboutText
      = (if (parseMeta { path := "/a/q/", pluginTxt := none, aboutTxt := "" }).aboutText = ""
          then ({ path := "/a/q/", pluginTxt := none, aboutTxt := "" } : PluginDir).aboutTxt
          else (parseMeta { path := "/a/q/", pluginTxt := none, aboutTxt := "" }).aboutText) :=
  load_preserves_state_fields _ _ _ (by decide)

/-- Claim C9 counterexample: toggling a name with no record creates the
invalid placeholder, but under the spec's "effectively enabled" default
state the new record has `enabled = true` and `currentState = false`, not
`enabled = false` and `currentState = true` as the claim states. -/
theorem toggle_unknown_cex :
    (findRecord (TogglePlugin [] "Z") "Z").map (fun p => (p.enabled, p.currentState))
      = some (true, false) := by
  decide

/-- Claim C9 (amended): `TogglePlugin(name)` for a name with no record
creates a fresh default record under that name (empty name field, hence
invalid) and flips its `currentState` away from the default: with the
spec's "effectively enabled" default, `enabled` stays true and
`currentState` becomes false. Consequently `HasChanged()` returns true even
though no valid plugin's state differs, and `Save()` omits this record from
the written file. -/
theorem toggle_unknown_creates_placeholder (reg : Registry) (n : String)
    (h : findRecord reg n = none) :
    findRecord (TogglePlugin reg n) n = some placeholderToggled ∧
    placeholderToggled.name = "" ∧
    placeholderToggled.IsValid = false ∧
    placeholderToggled.enabled = true ∧
    placeholderToggled.currentState = false ∧
    HasChanged (TogglePlugin reg n) = true ∧
    (∀ file, Save (TogglePlugin reg n) = some file →
      ∀ entry ∈ fileSettings file, entry.1 ≠ n) := by
  have hens : ensure reg n = reg ++ [(n, defaultPlugin)] := by
    unfold ensure
    rw [h]
  have hfind1 : findRecord (TogglePlugin reg n) n = some placeholderToggled := by
    unfold TogglePlugin
    rw [findRecord_updateRecord_self, findRecord_ensure_self, h]
    rfl
  have hmem : (n, placeholderToggled) ∈ TogglePlugin reg n :=
    mem_of_findRecord _ _ _ hfind1
  refine ⟨hfind1, rfl, rfl, rfl, rfl, ?_, ?_⟩
  · apply List.any_eq_true.mpr
    exact ⟨_, hmem, rfl⟩
  · intro file hs entry hent
    have hfs := fileSettings_save _ _ hs
    rw [hfs] at hent
    unfold savedPairs at hent
    rcases List.mem_map.mp hent with ⟨e, hef, heq⟩
    rcases List.mem_filter.mp hef with ⟨hereg, hval⟩
    intro hcontra
    have hfst : entry.1 = e.1 := by
      rw [← heq]
    unfold TogglePlugin at hereg
    rcases mem_updateRecord _ _ _ _ hereg with ⟨e0, h0, he0⟩
    obtain ⟨k0, p0⟩ := e0
    have he1 : e.1 = k0 := by
      by_cases hk : (k0, p0).1 = n
      · rw [if_pos hk] at he0
        rw [he0]
      · rw [if_neg hk] at he0
        rw [he0]
    rw [hens] at h0
    rcases List.mem_append.mp h0 with h0 | h0
    · have hk0 : ¬(k0 = n) := by
        have := (findRecord_eq_none_iff reg n).mp h (k0, p0) h0
        exact this
      exact hk0 (by rw [← he1, ← hfst, hcontra])
    · have hk0 : k0 = n ∧ p0 = defaultPlugin := by
        simpa using h0
      rw [if_pos (show ((k0, p0).1 = n) from hk0.1)] at he0
      have hval2 : placeholderToggled.IsValid = true := by
        have hp0 : e.2 = { p0 with currentState := !p0.currentState } := by
          rw [he0]
        rw [hp0, hk0.2] at hval
        exact hval
      exact absurd hval2 (by decide)

/-- Witness for the amended claim C9 on the empty registry. -/
theorem toggle_unknown_creates_placeholder_witness :
    findRecord (TogglePlugin [] "Z") "Z" = some placeholderToggled ∧
    placeholderToggled.name = "" ∧
    placeholderToggled.IsValid = false ∧
    placeholderToggled.enabled = true ∧
    placeholderToggled.currentState = false ∧
    HasChanged (TogglePlugin [] "Z") = true ∧
    (∀ file, Save (TogglePlugin [] "Z") = some file →
      ∀ entry ∈ fileSettings file, entry.1 ≠ "Z") :=
  toggle_unknown_creates_placeholder [] "Z" rfl

/-- Claim C10 is refuted by the code: the loader reads token index 1 of a
`game version` child of a `dependencies` block without a size guard (unlike
the `name`/`about`/`version` branches), and a declaration file whose
dependencies block contains a child with the single token `game version` is
well-formed parser output. On that input the read is out of range — the
embedding's `parseDepChild` then yields the totalized junk value. -/
theorem game_version_read_out_of_range :
    wfFile [DataNode.node ["dependencies"] [DataNode.node ["game version"] []]] = true ∧
    loadReadsInRange
      [DataNode.node ["dependencies"] [DataNode.node ["game version"] []]] = false ∧
    loadReadsInRange
      [DataNode.node ["dependencies"] [DataNode.node ["game version", "0.9.16"] []]] = true ∧
    (parseMeta { path := "/p/",
                 pluginTxt := some [DataNode.node ["dependencies"]
                   [DataNode.node ["game version"] []]],
                 aboutTxt := "" }).dependencies.gameVersion = "" := by
  refine ⟨by decide, by decide, by decide, by decide⟩
